import Mathlib

/-!
A shallow embedding of the `agent_teams.core` Python module: a file-based
team / mailbox / task coordination engine.  The filesystem under the teams
root is modelled by the structure `FS`; each Python function that touches
the filesystem becomes a Lean function threading an `FS` value and
returning `Except String α` for its fallible result (Python exceptions
become `Except.error`).  Nondeterministic inputs of the code — `uuid`
message ids and `datetime.now` timestamps — are passed in as explicit
oracle arguments.  Python default parameter values are noted in doc
comments; every Lean call site passes all arguments explicitly.
-/

namespace AgentTeams

/-- A mailbox message, mirroring the dict built in `send_message` /
`broadcast`: keys `id`, `from`, `to`, `type`, `text`, `timestamp`. -/
structure Message where
  mid : String
  mfrom : String
  mto : String
  mtype : String
  text : String
  timestamp : String
  deriving DecidableEq, Repr

/-- A task record, mirroring the dict built in `create_task`.  Python
`None` becomes `Option.none`. -/
structure Task where
  tid : String
  subject : String
  description : String
  status : String
  assigned_to : Option String
  assigned_by : Option String
  created : String
  claimed_at : Option String
  completed_at : Option String
  result : Option String
  deriving DecidableEq, Repr

/-- Content of an inbox file `<team>/inboxes/<agent>.json`: the file may be
absent, hold well-formed JSON (a list of messages; empty text is read as
`[]` by `_append_to_inbox` and `read_inbox`), or hold malformed content on
which `json.loads` raises. -/
inductive InboxFile where
  | absent
  | corrupt (raw : String)
  | msgs (l : List Message)
  deriving DecidableEq, Repr

/-- The filesystem state under `TEAMS_ROOT`:
`members team` is the content of `<team>/config.json`'s `members` list
(`none` when the config file is absent); `inbox team agent` the inbox
file; `cursor team agent` the content of the cursor file
`.<agent>.cursor` (`none` when absent); `tasks team` the set of task
files `<id>.json` in `<team>/tasks`, as an association list from the id
(filename stem) to the record. -/
structure FS where
  members : String → Option (List String)
  inbox : String → String → InboxFile
  cursor : String → String → Option Nat
  tasks : String → List (String × Task)

def setMembers (s : FS) (team : String) (v : Option (List String)) : FS :=
  { s with members := fun t => if t = team then v else s.members t }

def setInbox (s : FS) (team agent : String) (v : InboxFile) : FS :=
  { s with inbox := fun t a => if t = team ∧ a = agent then v else s.inbox t a }

def setCursor (s : FS) (team agent : String) (v : Option Nat) : FS :=
  { s with cursor := fun t a => if t = team ∧ a = agent then v else s.cursor t a }

def setTasks (s : FS) (team : String) (v : List (String × Task)) : FS :=
  { s with tasks := fun t => if t = team then v else s.tasks t }

/-- The filesystem with no teams root yet. -/
def emptyFS : FS :=
  ⟨fun _ => none, fun _ _ => .absent, fun _ _ => none, fun _ => []⟩

/-- Split a character list at the first `'@'`: `none` when there is none,
otherwise the characters before it and the characters after it. -/
def splitAtSign : List Char → Option (List Char × List Char)
  | [] => none
  | c :: rest =>
    if c = '@' then some ([], rest)
    else (splitAtSign rest).map fun p => (c :: p.1, p.2)

/-- `_parse_identity`: split `name@team` at the first `@`
(`identity.split("@", 1)`); raise `ValueError` when `@` is absent. -/
def _parse_identity (identity : String) : Except String (String × String) :=
  match splitAtSign identity.data with
  | none => .error ("Invalid identity " ++ identity ++ ", expected name@team")
  | some (n, t) => .ok (String.mk n, String.mk t)

-- ── JSON / XML rendering helpers (json.dumps with ensure_ascii) ──

def hexDigit (n : Nat) : Char :=
  if n < 10 then Char.ofNat (48 + n) else Char.ofNat (87 + n)

def hex4 (n : Nat) : String :=
  String.mk [hexDigit (n / 4096 % 16), hexDigit (n / 256 % 16),
             hexDigit (n / 16 % 16), hexDigit (n % 16)]

/-- Escape one character the way Python `json.dumps` (ensure_ascii=True)
does. -/
def escapeJsonChar (c : Char) : String :=
  if c = '"' then "\\\""
  else if c = '\\' then "\\\\"
  else if c = '\n' then "\\n"
  else if c = '\r' then "\\r"
  else if c = '\t' then "\\t"
  else if c.toNat = 8 then "\\b"
  else if c.toNat = 12 then "\\f"
  else if 32 ≤ c.toNat ∧ c.toNat ≤ 126 then String.mk [c]
  else if c.toNat < 65536 then "\\u" ++ hex4 c.toNat
  else
    "\\u" ++ hex4 (55296 + (c.toNat - 65536) / 1024) ++
    "\\u" ++ hex4 (56320 + (c.toNat - 65536) % 1024)

def escapeJson (t : String) : String :=
  String.join (t.data.map escapeJsonChar)

/-- A JSON string literal: `json.dumps` of a Python `str`. -/
def jstr (t : String) : String := "\"" ++ escapeJson t ++ "\""

/-- One message dict as rendered inside `json.dumps(new_msgs, indent=2)`
(object at list depth, keys in insertion order). -/
def msgJsonObj (m : Message) : String :=
  "  \x7b\n    \"id\": " ++ jstr m.mid ++
  ",\n    \"from\": " ++ jstr m.mfrom ++
  ",\n    \"to\": " ++ jstr m.mto ++
  ",\n    \"type\": " ++ jstr m.mtype ++
  ",\n    \"text\": " ++ jstr m.text ++
  ",\n    \"timestamp\": " ++ jstr m.timestamp ++ "\n  \x7d"

/-- `json.dumps(l, indent=2)` for a list of messages. -/
def renderJsonMsgs (l : List Message) : String :=
  if l.isEmpty then "[]"
  else "[\n" ++ String.intercalate ",\n" (l.map msgJsonObj) ++ "\n]"

/-- One `<teammate-message …>` block of `poll_inbox`'s XML output (the
f-string performs no escaping). -/
def msgXml (team : String) (m : Message) : String :=
  "<teammate-message from=\"" ++ m.mfrom ++ "\" team=\"" ++ team ++
  "\" type=\"" ++ m.mtype ++ "\" timestamp=\"" ++ m.timestamp ++ "\">\n" ++
  m.text ++ "\n</teammate-message>"

def renderXml (team : String) (l : List Message) : String :=
  String.intercalate "\n" (l.map (msgXml team))

/-- The body of the task-assignment notification in `create_task`:
`json.dumps({"type": "task_assignment", "taskId": …, "subject": …,
"description": …})` with Python's default separators. -/
def notificationText (task_id subject description : String) : String :=
  "\x7b\"type\": \"task_assignment\", \"taskId\": " ++ jstr task_id ++
  ", \"subject\": " ++ jstr subject ++
  ", \"description\": " ++ jstr description ++ "\x7d"

-- ── Team management ──

/-- `create_team`: writes the config (members defaulting to `[]` in
Python), creates the directories, and writes an empty inbox file for each
initial member.  Existing task files, cursors and other inboxes are left
in place (`mkdir(exist_ok=True)` does not clear anything). -/
def create_team (team : String) (membersL : List String) (s : FS) :
    List String × FS :=
  let s1 := setMembers s team (some membersL)
  let s2 := membersL.foldl (fun st m => setInbox st team m (.msgs [])) s1
  (membersL, s2)

/-- `add_member`: reads the config (raising if absent), appends the name
if not already a member, and unconditionally rewrites the member's inbox
file to `[]`.  The cursor file is not touched. -/
def add_member (team name : String) (s : FS) :
    Except String (List String) × FS :=
  match s.members team with
  | none => (.error "config.json not found", s)
  | some ms =>
    let ms2 := if name ∈ ms then ms else ms ++ [name]
    let s1 := setMembers s team (some ms2)
    let s2 := setInbox s1 team name (.msgs [])
    (.ok ms2, s2)

/-- `remove_member`: filters the name out of the member list and deletes
the member's inbox and cursor files. -/
def remove_member (team name : String) (s : FS) :
    Except String (List String) × FS :=
  match s.members team with
  | none => (.error "config.json not found", s)
  | some ms =>
    let ms2 := ms.filter (fun m => m ≠ name)
    let s1 := setMembers s team (some ms2)
    let s2 := setInbox s1 team name .absent
    let s3 := setCursor s2 team name none
    (.ok ms2, s3)

-- ── Mailbox ──

/-- `_append_to_inbox`: under the lock, read the inbox (absent or empty
content is `[]`; malformed content raises in `json.loads`), append the
message, write back. -/
def _append_to_inbox (team agent : String) (msg : Message) (s : FS) :
    Except String FS :=
  match s.inbox team agent with
  | .corrupt _ => .error "json.loads: malformed inbox content"
  | .absent => .ok (setInbox s team agent (.msgs [msg]))
  | .msgs l => .ok (setInbox s team agent (.msgs (l ++ [msg])))

/-- `send_message(from_id, to_id, text, msg_type="message")`.  Oracles:
`freshId` models `str(uuid.uuid4())[:8]`, `now` models `_now()`. -/
def send_message (from_id to_id text msg_type freshId now : String)
    (s : FS) : Except String Message × FS :=
  match _parse_identity from_id with
  | .error e => (.error e, s)
  | .ok (from_name, from_team) =>
    match _parse_identity to_id with
    | .error e => (.error e, s)
    | .ok (to_name, to_team) =>
      if from_team ≠ to_team then
        (.error "Cross-team messaging not supported", s)
      else
        let msg : Message := ⟨freshId, from_name, to_name, msg_type, text, now⟩
        match _append_to_inbox to_team to_name msg s with
        | .error e => (.error e, s)
        | .ok s1 => (.ok msg, s1)

/-- The member loop of `broadcast`: one message per member other than the
sender; an exception from an append propagates at once, leaving the
earlier appends in place.  `fresh k` supplies the k-th `(uuid, _now())`
pair actually consumed. -/
def broadcastLoop (team from_name text msg_type : String)
    (fresh : Nat → String × String) :
    List String → Nat → List Message → FS →
    Except String (List Message) × FS
  | [], _, acc, s => (.ok acc, s)
  | member :: rest, k, acc, s =>
    if member = from_name then
      broadcastLoop team from_name text msg_type fresh rest k acc s
    else
      let msg : Message :=
        ⟨(fresh k).1, from_name, member, msg_type, text, (fresh k).2⟩
      match _append_to_inbox team member msg s with
      | .error e => (.error e, s)
      | .ok s1 =>
        broadcastLoop team from_name text msg_type fresh rest (k + 1)
          (acc ++ [msg]) s1

/-- `broadcast(from_id, text, msg_type="broadcast")`: parse the sender,
read the team config (`team_info` raises when absent), then append to
every member except the sender. -/
def broadcast (from_id text msg_type : String)
    (fresh : Nat → String × String) (s : FS) :
    Except String (List Message) × FS :=
  match _parse_identity from_id with
  | .error e => (.error e, s)
  | .ok (from_name, team) =>
    match s.members team with
    | none => (.error "config.json not found", s)
    | some ms => broadcastLoop team from_name text msg_type fresh ms 0 [] s

/-- Cursor value as `poll_inbox` reads it: `0` when the cursor file is
absent. -/
def cursorVal (s : FS) (team agent : String) : Nat :=
  (s.cursor team agent).getD 0

/-- Length of the message sequence in an inbox file (0 when absent). -/
def inboxLen (s : FS) (team agent : String) : Nat :=
  match s.inbox team agent with
  | .msgs l => l.length
  | _ => 0

/-- `poll_inbox(identity, format="xml")`: early-return when the inbox file
does not exist; otherwise read the messages, read the cursor (0 when
absent), slice from the cursor, write the new cursor = message count, and
render the slice (empty slice renders as `""` for xml and `"[]"`
otherwise). -/
def poll_inbox (identity fmt : String) (s : FS) :
    Except String String × FS :=
  match _parse_identity identity with
  | .error e => (.error e, s)
  | .ok (name, team) =>
    match s.inbox team name with
    | .absent => (.ok (if fmt = "xml" then "" else "[]"), s)
    | .corrupt _ => (.error "json.loads: malformed inbox content", s)
    | .msgs messages =>
      let cursor := cursorVal s team name
      let new_msgs := messages.drop cursor
      let s1 := setCursor s team name (some messages.length)
      if new_msgs.isEmpty then
        (.ok (if fmt = "xml" then "" else "[]"), s1)
      else if fmt = "json" then
        (.ok (renderJsonMsgs new_msgs), s1)
      else
        (.ok (renderXml team new_msgs), s1)

/-- `read_inbox`: read the whole inbox (`[]` when the file is absent or
empty); no write of any kind. -/
def read_inbox (identity : String) (s : FS) :
    Except String (List Message) × FS :=
  match _parse_identity identity with
  | .error e => (.error e, s)
  | .ok (name, team) =>
    match s.inbox team name with
    | .absent => (.ok [], s)
    | .corrupt _ => (.error "json.loads: malformed inbox content", s)
    | .msgs l => (.ok l, s)

-- ── Tasks ──

/-- Read the task file `<tid>.json` (association-list lookup). -/
def lookupTask (ts : List (String × Task)) (tid : String) : Option Task :=
  match ts with
  | [] => none
  | (k, t) :: rest => if k = tid then some t else lookupTask rest tid

/-- Write the task file `<tid>.json` (replace when present, create when
absent). -/
def writeTask (ts : List (String × Task)) (tid : String) (t : Task) :
    List (String × Task) :=
  match ts with
  | [] => [(tid, t)]
  | (k, u) :: rest =>
    if k = tid then (tid, t) :: rest else (k, u) :: writeTask rest tid t

/-- `create_task(team, subject, description="", assigned_to="",
assigned_by="")`: id = `str(count of existing task files + 1)`, record
written pending; then, only when both `assigned_to` and `assigned_by` are
non-empty (Python truthiness), `send_message` delivers the
`task_assignment` notification — an exception there propagates after the
record is already on disk.  Oracles: `freshId`/`nowM` feed the
notification `send_message`, `nowT` the task's `created` stamp. -/
def create_task (team subject description assigned_to assigned_by
    freshId nowT nowM : String) (s : FS) : Except String Task × FS :=
  let ts := s.tasks team
  let task_id := toString (ts.length + 1)
  let task : Task :=
    ⟨task_id, subject, description, "pending",
     (if assigned_to = "" then none else some assigned_to),
     (if assigned_by = "" then none else some assigned_by),
     nowT, none, none, none⟩
  let s1 := setTasks s team (writeTask ts task_id task)
  if assigned_to ≠ "" ∧ assigned_by ≠ "" then
    match send_message (assigned_by ++ "@" ++ team) (assigned_to ++ "@" ++ team)
        (notificationText task_id subject description) "task_assignment"
        freshId nowM s1 with
    | (.error e, s2) => (.error e, s2)
    | (.ok _, s2) => (.ok task, s2)
  else
    (.ok task, s1)

/-- `claim_task`: `ValueError` when the task file does not exist or the
status is not exactly `"pending"`; otherwise set status/assignee/claim
time and write back. -/
def claim_task (team task_id agent now : String) (s : FS) :
    Except String Task × FS :=
  match lookupTask (s.tasks team) task_id with
  | none => (.error ("Task " ++ task_id ++ " not found"), s)
  | some task =>
    if task.status ≠ "pending" then
      (.error ("Task " ++ task_id ++ " is " ++ task.status ++ ", cannot claim"), s)
    else
      let t2 := { task with status := "in_progress",
                            assigned_to := some agent,
                            claimed_at := some now }
      (.ok t2, setTasks s team (writeTask (s.tasks team) task_id t2))

/-- `complete_task(team, task_id, agent, result="")`: `ValueError` when
the task file does not exist or the status is not exactly
`"in_progress"`; the `agent` argument is never compared with the recorded
claimant. -/
def complete_task (team task_id agent result now : String) (s : FS) :
    Except String Task × FS :=
  match lookupTask (s.tasks team) task_id with
  | none => (.error ("Task " ++ task_id ++ " not found"), s)
  | some task =>
    if task.status ≠ "in_progress" then
      (.error ("Task " ++ task_id ++ " is " ++ task.status ++ ", cannot complete"), s)
    else
      let t2 := { task with status := "completed",
                            completed_at := some now,
                            result := some result }
      (.ok t2, setTasks s team (writeTask (s.tasks team) task_id t2))

/-- Filename of a task id, as globbed and sorted by `list_tasks`. -/
def fileName (tid : String) : String := tid ++ ".json"

/-- Lexicographic order on character lists by code point — Python's
string comparison. -/
def charListLe : List Char → List Char → Bool
  | [], _ => true
  | _ :: _, [] => false
  | a :: as, b :: bs =>
    if a.toNat < b.toNat then true
    else if b.toNat < a.toNat then false
    else charListLe as bs

/-- Python string `<=` (lexicographic by code point). -/
def strLe (a b : String) : Bool := charListLe a.data b.data

/-- The comparison `sorted()` applies to two task files in one directory:
their filenames as strings. -/
def taskFileLe (a b : String × Task) : Prop :=
  strLe (fileName a.1) (fileName b.1) = true

instance : DecidableRel taskFileLe := fun a b => by
  unfold taskFileLe; infer_instance

/-- `list_tasks(team, status=None)`: iterate the task files in
`sorted(glob("*.json"))` order — lexicographic on the filename string —
parse each, and keep those matching the status filter.  (Python `sorted`
and `List.insertionSort` are both stable, so they agree on every input.) -/
def list_tasks (team : String) (status : Option String) (s : FS) :
    List Task :=
  let sortedTs := List.insertionSort taskFileLe (s.tasks team)
  (sortedTs.map Prod.snd).filter fun t =>
    match status with
    | none => true
    | some st => decide (t.status = st)

/-- A sequence of N `_append_to_inbox` calls to one mailbox (the shape of
message delivery quantified over by the spec); an exception stops the
sequence. -/
def appendAll (team agent : String) (ms : List Message) (s : FS) :
    Except String FS :=
  match ms with
  | [] => .ok s
  | m :: rest =>
    match _append_to_inbox team agent m s with
    | .error e => .error e
    | .ok s1 => appendAll team agent rest s1

-- ── Helper lemmas ──

theorem inbox_setCursor (s : FS) (team agent : String) (v : Option Nat) :
    (setCursor s team agent v).inbox = s.inbox := rfl

theorem cursor_setInbox (s : FS) (team agent : String) (v : InboxFile) :
    (setInbox s team agent v).cursor = s.cursor := rfl

theorem cursorVal_setCursor_self (s : FS) (team agent : String) (k : Nat) :
    cursorVal (setCursor s team agent (some k)) team agent = k := by
  simp [cursorVal, setCursor]

theorem inbox_setInbox_self (s : FS) (team agent : String) (v : InboxFile) :
    (setInbox s team agent v).inbox team agent = v := by
  simp [setInbox]

/-- `poll_inbox` never writes any inbox file: the message logs of every
mailbox are untouched, whatever the identity, format and state. -/
theorem poll_inbox_preserves_inbox (ident fmt : String) (s : FS) :
    ((poll_inbox ident fmt s).2).inbox = s.inbox := by
  unfold poll_inbox
  split
  · rfl
  · split
    · rfl
    · rfl
    · dsimp only
      split
      · rfl
      · split <;> rfl

/-- `read_inbox` performs no write: every branch returns the state it was
given. -/
theorem read_inbox_preserves_state (ident : String) (s : FS) :
    (read_inbox ident s).2 = s := by
  unfold read_inbox
  split
  · rfl
  · split <;> rfl

/-- Appending a list of messages to a well-formed mailbox succeeds,
extends the log in order, and touches no cursor and no other mailbox. -/
theorem appendAll_msgs (team agent : String) :
    ∀ (ms : List Message) (s : FS) (l : List Message),
    s.inbox team agent = .msgs l →
    ∃ s1, appendAll team agent ms s = .ok s1 ∧
      s1.inbox team agent = .msgs (l ++ ms) ∧
      s1.cursor = s.cursor ∧
      (∀ t2 a2, ¬(t2 = team ∧ a2 = agent) → s1.inbox t2 a2 = s.inbox t2 a2) ∧
      s1.tasks = s.tasks ∧ s1.members = s.members := by
  intro ms
  induction ms with
  | nil =>
    intro s l h
    exact ⟨s, rfl, by simpa using h, rfl, fun _ _ _ => rfl, rfl, rfl⟩
  | cons m rest ih =>
    intro s l h
    have hstep : _append_to_inbox team agent m s =
        .ok (setInbox s team agent (.msgs (l ++ [m]))) := by
      simp [_append_to_inbox, h]
    obtain ⟨s1, hA, hI, hC, hO, hT, hM⟩ :=
      ih (setInbox s team agent (.msgs (l ++ [m]))) (l ++ [m])
        (inbox_setInbox_self s team agent _)
    refine ⟨s1, ?_, ?_, ?_, ?_, hT, hM⟩
    · simp [appendAll, hstep, hA]
    · simpa using hI
    · rw [hC]; rfl
    · intro t2 a2 hne
      rw [hO t2 a2 hne]
      simp [setInbox]
      intro h1 h2
      exact absurd ⟨h1, h2⟩ hne

theorem charListLe_total : ∀ a b, charListLe a b = true ∨ charListLe b a = true := by
  intro a
  induction a with
  | nil => intro b; left; rfl
  | cons x xs ih =>
    intro b
    cases b with
    | nil => right; rfl
    | cons y ys =>
      by_cases h1 : x.toNat < y.toNat
      · left; simp [charListLe, h1]
      · by_cases h2 : y.toNat < x.toNat
        · right; simp [charListLe, h2]
        · rcases ih ys with h | h
          · left; simp [charListLe, h1, h2, h]
          · right; simp [charListLe, h1, h2, h]

theorem charListLe_trans :
    ∀ a b c, charListLe a b = true → charListLe b c = true →
      charListLe a c = true := by
  intro a
  induction a with
  | nil => intro b c _ _; rfl
  | cons x xs ih =>
    intro b c hab hbc
    cases b with
    | nil => simp [charListLe] at hab
    | cons y ys =>
      cases c with
      | nil => simp [charListLe] at hbc
      | cons z zs =>
        by_cases hxy : x.toNat < y.toNat
        · by_cases hyz : y.toNat < z.toNat
          · have hxz : x.toNat < z.toNat := lt_trans hxy hyz
            simp [charListLe, hxz]
          · by_cases hzy : z.toNat < y.toNat
            · simp [charListLe, hyz, hzy] at hbc
            · have hyz2 : y.toNat = z.toNat :=
                le_antisymm (Nat.not_lt.mp hzy) (Nat.not_lt.mp hyz)
              have hxz : x.toNat < z.toNat := hyz2 ▸ hxy
              simp [charListLe, hxz]
        · by_cases hyx : y.toNat < x.toNat
          · simp [charListLe, hxy, hyx] at hab
          · have hxy2 : x.toNat = y.toNat :=
              le_antisymm (Nat.not_lt.mp hyx) (Nat.not_lt.mp hxy)
            by_cases hyz : y.toNat < z.toNat
            · have hxz : x.toNat < z.toNat := hxy2 ▸ hyz
              simp [charListLe, hxz]
            · by_cases hzy : z.toNat < y.toNat
              · simp [charListLe, hyz, hzy] at hbc
              · have hyz2 : y.toNat = z.toNat :=
                  le_antisymm (Nat.not_lt.mp hzy) (Nat.not_lt.mp hyz)
                have hxz : ¬ x.toNat < z.toNat := by
                  rw [hxy2, hyz2]; exact lt_irrefl _
                have hzx : ¬ z.toNat < x.toNat := by
                  rw [hxy2, hyz2]; exact lt_irrefl _
                have hab2 : charListLe xs ys = true := by
                  simpa [charListLe, hxy, hyx] using hab
                have hbc2 : charListLe ys zs = true := by
                  simpa [charListLe, hyz, hzy] using hbc
                simp only [charListLe, hxz, hzx, if_false]
                exact ih ys zs hab2 hbc2

instance : IsTotal (String × Task) taskFileLe :=
  ⟨fun a b => charListLe_total (fileName a.1).data (fileName b.1).data⟩

instance : IsTrans (String × Task) taskFileLe :=
  ⟨fun a b c => charListLe_trans (fileName a.1).data (fileName b.1).data
    (fileName c.1).data⟩

theorem lookupTask_writeTask_self (ts : List (String × Task)) (tid : String)
    (t : Task) : lookupTask (writeTask ts tid t) tid = some t := by
  induction ts with
  | nil => simp [writeTask, lookupTask]
  | cons p rest ih =>
    obtain ⟨k, u⟩ := p
    by_cases h : k = tid
    · simp [writeTask, lookupTask, h]
    · simp [writeTask, lookupTask, h, ih]

/-- The message list a mailbox file parses to: `none` when `json.loads`
would raise, `some []` for an absent file (append treats it as empty). -/
def inboxMsgsD : InboxFile → Option (List Message)
  | .absent => some []
  | .msgs l => some l
  | .corrupt _ => none

/-- Whether a call raised (Python: an exception propagated). -/
def isErr {α : Type} : Except String α → Bool
  | .error _ => true
  | .ok _ => false

theorem inbox_setTasks (s : FS) (team : String) (v : List (String × Task)) :
    (setTasks s team v).inbox = s.inbox := rfl

theorem append_to_inbox_frame (t a : String) (m : Message) (s s1 : FS)
    (h : _append_to_inbox t a m s = .ok s1) :
    s1.tasks = s.tasks ∧ s1.cursor = s.cursor ∧ s1.members = s.members := by
  rcases hi : s.inbox t a with _ | r | l
  · simp only [_append_to_inbox, hi, Except.ok.injEq] at h
    subst h; exact ⟨rfl, rfl, rfl⟩
  · simp [_append_to_inbox, hi] at h
  · simp only [_append_to_inbox, hi, Except.ok.injEq] at h
    subst h; exact ⟨rfl, rfl, rfl⟩

theorem send_message_frame (f t x mt i n : String) (s : FS) :
    ((send_message f t x mt i n s).2).tasks = s.tasks ∧
    ((send_message f t x mt i n s).2).cursor = s.cursor ∧
    ((send_message f t x mt i n s).2).members = s.members := by
  rcases hf : _parse_identity f with e | ⟨fn, ft⟩
  · simp [send_message, hf]
  · rcases ht : _parse_identity t with e | ⟨tn, tt⟩
    · simp [send_message, hf, ht]
    · by_cases hne : ft ≠ tt
      · simp [send_message, hf, ht, hne]
      · rcases hi : s.inbox tt tn with _ | r | l
        · simp [send_message, hf, ht, hne, _append_to_inbox, hi, setInbox]
        · simp [send_message, hf, ht, hne, _append_to_inbox, hi]
        · simp [send_message, hf, ht, hne, _append_to_inbox, hi, setInbox]

/-- Correctness of the `broadcast` member loop: with no duplicate
members and every non-sender recipient mailbox parsable, the loop
succeeds, appends exactly one message (with the broadcast text and type)
to each member other than the sender, and touches nothing else. -/
theorem broadcastLoop_ok (team fn text msg_type : String)
    (fresh : Nat → String × String) :
    ∀ (rest : List String) (k : Nat) (acc : List Message) (s : FS),
    rest.Nodup →
    (∀ m ∈ rest, m ≠ fn → (inboxMsgsD (s.inbox team m)).isSome) →
    ∃ msgs s1,
      broadcastLoop team fn text msg_type fresh rest k acc s =
        (.ok (acc ++ msgs), s1) ∧
      msgs.length = (rest.filter (fun m => decide (m ≠ fn))).length ∧
      (∀ t2 a2, ¬(t2 = team ∧ a2 ∈ rest ∧ a2 ≠ fn) →
        s1.inbox t2 a2 = s.inbox t2 a2) ∧
      (∀ m ∈ rest, m ≠ fn → ∃ j, k ≤ j ∧ s1.inbox team m =
        .msgs ((inboxMsgsD (s.inbox team m)).getD [] ++
          [⟨(fresh j).1, fn, m, msg_type, text, (fresh j).2⟩])) ∧
      s1.cursor = s.cursor ∧ s1.tasks = s.tasks ∧ s1.members = s.members := by
  intro rest
  induction rest with
  | nil =>
    intro k acc s _ _
    exact ⟨[], s, by simp [broadcastLoop], by simp, fun _ _ _ => rfl,
      by simp, rfl, rfl, rfl⟩
  | cons member rest ih =>
    intro k acc s hND hOK
    by_cases hm : member = fn
    · obtain ⟨msgs, s1, hEq, hLen, hUn, hPer, hC, hT, hM⟩ :=
        ih k acc s hND.of_cons
        (fun m hmem hne => hOK m (List.mem_cons_of_mem _ hmem) hne)
      refine ⟨msgs, s1, ?_, ?_, ?_, ?_, hC, hT, hM⟩
      · simpa [broadcastLoop, hm] using hEq
      · simpa [hm] using hLen
      · intro t2 a2 hne
        refine hUn t2 a2 fun hcon => hne ?_
        exact ⟨hcon.1, List.mem_cons_of_mem _ hcon.2.1, hcon.2.2⟩
      · intro m hmem hne
        rcases List.mem_cons.mp hmem with h1 | h1
        · exact absurd (h1.trans hm) hne
        · exact hPer m h1 hne
    · have hsome := hOK member (List.mem_cons_self _ _) hm
      have hnotin : member ∉ rest := (List.nodup_cons.mp hND).1
      set msg : Message :=
        ⟨(fresh k).1, fn, member, msg_type, text, (fresh k).2⟩ with hmsg
      obtain ⟨old, hstep, hgetD⟩ :
          ∃ old : List Message,
            _append_to_inbox team member msg s =
              .ok (setInbox s team member (.msgs (old ++ [msg]))) ∧
            (inboxMsgsD (s.inbox team member)).getD [] = old := by
        rcases hi : s.inbox team member with _ | r | l
        · exact ⟨[], by simp [_append_to_inbox, hi], by simp [hi, inboxMsgsD]⟩
        · rw [hi] at hsome; simp [inboxMsgsD] at hsome
        · exact ⟨l, by simp [_append_to_inbox, hi], by simp [hi, inboxMsgsD]⟩
      set s' := setInbox s team member (.msgs (old ++ [msg])) with hs'
      have hOK2 : ∀ m ∈ rest, m ≠ fn → (inboxMsgsD (s'.inbox team m)).isSome := by
        intro m hmem hne
        have hne2 : ¬(m = member) := fun he => hnotin (he ▸ hmem)
        have hun : s'.inbox team m = s.inbox team m := by
          simp [hs', setInbox, hne2]
        rw [hun]
        exact hOK m (List.mem_cons_of_mem _ hmem) hne
      obtain ⟨msgs1, s1, hEq, hLen, hUn, hPer, hC, hT, hM⟩ :=
        ih (k + 1) (acc ++ [msg]) s' hND.of_cons hOK2
      refine ⟨msg :: msgs1, s1, ?_, ?_, ?_, ?_, ?_, ?_, ?_⟩
      · simp only [broadcastLoop, if_neg hm, ← hmsg, hstep]
        rw [hEq]
        simp
      · simp [hLen, hm]
      · intro t2 a2 hne
        have h1 : ¬(t2 = team ∧ a2 ∈ rest ∧ a2 ≠ fn) := fun hcon =>
          hne ⟨hcon.1, List.mem_cons_of_mem _ hcon.2.1, hcon.2.2⟩
        have h2 : ¬(t2 = team ∧ a2 = member) := fun hcon =>
          hne ⟨hcon.1, by rw [hcon.2]; exact List.mem_cons_self _ _,
               by rw [hcon.2]; exact hm⟩
        rw [hUn t2 a2 h1, hs']
        simp only [setInbox]
        rw [if_neg h2]
      · intro m hmem hne
        rcases List.mem_cons.mp hmem with h1 | h1
        · subst h1
          have hu : s1.inbox team m = s'.inbox team m :=
            hUn team m (fun hcon => hnotin hcon.2.1)
          refine ⟨k, le_refl _, ?_⟩
          rw [hu, hs']
          rw [hgetD]
          simp [setInbox, hmsg]
        · have hne2 : ¬(m = member) := fun he => hnotin (he ▸ h1)
          have hins : s'.inbox team m = s.inbox team m := by
            simp [hs', setInbox, hne2]
          obtain ⟨j, hkj, hj⟩ := hPer m h1 hne
          exact ⟨j, le_trans (Nat.le_succ k) hkj, by rw [hj, hins]⟩
      · rw [hC, hs']; rfl
      · rw [hT, hs']; rfl
      · rw [hM, hs']; rfl

-- ── Concrete exhibits used by witness theorems ──

def exMsg : Message := ⟨"i1", "b", "a", "message", "hi", "T1"⟩

def exMsg2 : Message := ⟨"i2", "b", "a", "message", "again", "T2"⟩

def exFSMsg : FS := setInbox emptyFS "t" "a" (.msgs [exMsg])

def exTaskPending : Task :=
  ⟨"1", "fix bug", "", "pending", none, none, "T0", none, none, none⟩

def exTaskInProgress : Task :=
  ⟨"1", "fix bug", "", "in_progress", some "w", none, "T0", some "T1", none, none⟩

def exFSPending : FS := setTasks emptyFS "t" [("1", exTaskPending)]

def exFSInProgress : FS := setTasks emptyFS "t" [("1", exTaskInProgress)]

-- ── C10 ──

/-- C10: when the identity's inbox file does not exist, `poll_inbox`
returns an empty result (`""` for the xml format, `"[]"` otherwise — in
particular for json) without raising, and the state — in particular the
agent's cursor file — is exactly as before. -/
theorem poll_inbox_missing_spec (ident fmt name team : String) (s : FS)
    (hId : _parse_identity ident = .ok (name, team))
    (h : s.inbox team name = .absent) :
    poll_inbox ident fmt s = (.ok (if fmt = "xml" then "" else "[]"), s) := by
  simp [poll_inbox, hId, h]

/-- Witness for C10: polling a never-written mailbox in json format. -/
theorem poll_inbox_missing_spec_witness :
    poll_inbox "a@t" "json" emptyFS = (.ok "[]", emptyFS) := by
  have h := poll_inbox_missing_spec "a@t" "json" "a" "t" emptyFS rfl rfl
  simpa using h

-- ── C5 ──

/-- C5: `read_inbox` returns the entire message sequence (`[]` when the
file is absent) and performs no write at all: the state is returned
unchanged — in particular no cursor moves — so repeated `read_inbox`
calls agree and interleaving a `read_inbox` before any `poll_inbox`
leaves that poll's outcome unchanged. -/
theorem read_inbox_spec (ident : String) (s : FS) :
    (read_inbox ident s).2 = s ∧
    (∀ name team, _parse_identity ident = .ok (name, team) →
      (∀ l, s.inbox team name = .msgs l → (read_inbox ident s).1 = .ok l) ∧
      (s.inbox team name = .absent → (read_inbox ident s).1 = .ok [])) ∧
    read_inbox ident ((read_inbox ident s).2) = read_inbox ident s ∧
    (∀ ident2 fmt, poll_inbox ident2 fmt ((read_inbox ident s).2) =
      poll_inbox ident2 fmt s) ∧
    (∀ t2 a2, ((read_inbox ident s).2).cursor t2 a2 = s.cursor t2 a2) := by
  have h2 := read_inbox_preserves_state ident s
  refine ⟨h2, fun name team hId => ⟨fun l hl => ?_, fun ha => ?_⟩,
    by rw [h2], fun i2 f2 => by rw [h2], fun t2 a2 => by rw [h2]⟩
  · simp [read_inbox, hId, hl]
  · simp [read_inbox, hId, ha]

/-- Witness for C5 at a one-message mailbox. -/
theorem read_inbox_spec_witness :
    (read_inbox "a@t" exFSMsg).1 = .ok [exMsg] :=
  ((read_inbox_spec "a@t" exFSMsg).2.1 "a" "t" rfl).1 [exMsg] (by decide)

-- ── C2 ──

/-- C2: starting from a mailbox whose cursor has caught up with its log
(`cursorVal = length`, covering the fresh mailbox), any sequence of N
appends succeeds and extends the log in order; the next poll returns
exactly those N messages in append order (rendered by `renderJsonMsgs`,
which is also `"[]"` when N = 0); poll never truncates or mutates any
message log, in any state; the poll advances the cursor to the log
length, so a second immediate poll returns the empty result in both
formats. -/
theorem append_then_poll_spec (ident name team : String) (s : FS)
    (hId : _parse_identity ident = .ok (name, team))
    (l : List Message) (hInbox : s.inbox team name = .msgs l)
    (hCur : cursorVal s team name = l.length) (ms : List Message) :
    ∃ s1, appendAll team name ms s = .ok s1 ∧
      s1.inbox team name = .msgs (l ++ ms) ∧
      (poll_inbox ident "json" s1).1 = .ok (renderJsonMsgs ms) ∧
      (∀ i2 f2 s2, ((poll_inbox i2 f2 s2).2).inbox = s2.inbox) ∧
      ((poll_inbox ident "json" s1).2).inbox team name = .msgs (l ++ ms) ∧
      cursorVal ((poll_inbox ident "json" s1).2) team name =
        l.length + ms.length ∧
      (poll_inbox ident "json" ((poll_inbox ident "json" s1).2)).1 =
        .ok "[]" ∧
      (poll_inbox ident "xml" ((poll_inbox ident "json" s1).2)).1 =
        .ok "" := by
  obtain ⟨s1, hA, hI, hC, _, _, _⟩ := appendAll_msgs team name ms s l hInbox
  have hCur1 : cursorVal s1 team name = l.length := by
    rw [cursorVal, hC]; exact hCur
  have hdrop : (l ++ ms).drop l.length = ms := List.drop_left l ms
  have hPoll : poll_inbox ident "json" s1 =
      (.ok (renderJsonMsgs ms), setCursor s1 team name (some (l ++ ms).length)) := by
    rcases ms with _ | ⟨m, rest⟩
    · simp [poll_inbox, hId, hI, hCur1, renderJsonMsgs]
    · simp [poll_inbox, hId, hI, hCur1, hdrop, List.isEmpty]
  refine ⟨s1, hA, hI, ?_, poll_inbox_preserves_inbox, ?_, ?_, ?_, ?_⟩
  · rw [hPoll]
  · rw [hPoll]
    simpa [inbox_setCursor] using hI
  · rw [hPoll]
    simp [cursorVal_setCursor_self]
  · rw [hPoll]
    have hI2 : (setCursor s1 team name (some (l ++ ms).length)).inbox team name =
        .msgs (l ++ ms) := hI
    have hC2 : cursorVal (setCursor s1 team name (some (l ++ ms).length))
        team name = (l ++ ms).length := cursorVal_setCursor_self ..
    simp only [poll_inbox, hId, hI2, hC2]
    simp [List.drop_length]
  · rw [hPoll]
    have hI2 : (setCursor s1 team name (some (l ++ ms).length)).inbox team name =
        .msgs (l ++ ms) := hI
    have hC2 : cursorVal (setCursor s1 team name (some (l ++ ms).length))
        team name = (l ++ ms).length := cursorVal_setCursor_self ..
    simp only [poll_inbox, hId, hI2, hC2]
    simp [List.drop_length]

/-- Witness for C2: two appends to a fresh (created-empty) mailbox, then
a poll. -/
theorem append_then_poll_spec_witness :
    ∃ s1, appendAll "t" "a" [exMsg, exMsg2]
        (setInbox emptyFS "t" "a" (.msgs [])) = .ok s1 ∧
      (poll_inbox "a@t" "json" s1).1 = .ok (renderJsonMsgs [exMsg, exMsg2]) := by
  obtain ⟨s1, hA, _, hP, _⟩ := append_then_poll_spec "a@t" "a" "t"
    (setInbox emptyFS "t" "a" (.msgs [])) rfl [] (by decide) (by decide)
    [exMsg, exMsg2]
  exact ⟨s1, hA, by simpa using hP⟩

-- ── C1 ──

/-- C1: `claim_task` fails with a conflict error whenever the task's
status is not exactly `"pending"` (and with a not-found error when no
task file with that id exists), leaving the state unchanged; when the
status is `"pending"` it returns the task updated to status
`"in_progress"`, `assigned_to` the given agent, `claimed_at` the current
time, and writes that record back. -/
theorem claim_task_spec (team task_id agent now : String) (s : FS) :
    (lookupTask (s.tasks team) task_id = none →
      claim_task team task_id agent now s =
        (.error ("Task " ++ task_id ++ " not found"), s)) ∧
    (∀ t, lookupTask (s.tasks team) task_id = some t → t.status ≠ "pending" →
      claim_task team task_id agent now s =
        (.error ("Task " ++ task_id ++ " is " ++ t.status ++ ", cannot claim"), s)) ∧
    (∀ t, lookupTask (s.tasks team) task_id = some t → t.status = "pending" →
      (claim_task team task_id agent now s).1 =
        .ok { t with status := "in_progress", assigned_to := some agent,
                     claimed_at := some now } ∧
      lookupTask (((claim_task team task_id agent now s).2).tasks team) task_id =
        some { t with status := "in_progress", assigned_to := some agent,
                      claimed_at := some now }) := by
  refine ⟨fun h => ?_, fun t h hst => ?_, fun t h hst => ?_⟩
  · simp [claim_task, h]
  · simp [claim_task, h, hst]
  · constructor
    · simp [claim_task, h, hst]
    · simp [claim_task, h, hst, setTasks, lookupTask_writeTask_self]

/-- Witness for C1 at a concrete pending task. -/
theorem claim_task_spec_witness :
    (claim_task "t" "1" "w" "T1" exFSPending).1 =
      .ok { exTaskPending with status := "in_progress",
                               assigned_to := some "w",
                               claimed_at := some "T1" } :=
  ((claim_task_spec "t" "1" "w" "T1" exFSPending).2.2 exTaskPending
    (by decide) (by decide)).1

-- ── C6 ──

/-- C6: `complete_task` fails whenever the task's status is not exactly
`"in_progress"` (including after a first successful complete); when the
status is `"in_progress"` it returns the task updated to status
`"completed"`, `completed_at` the current time, and `result` the given
string, writing that record back; the outcome is the same for every
`agent` argument (the claimant is never checked), and a second complete
call on the same task fails. -/
theorem complete_task_spec (team task_id agent result now : String) (s : FS) :
    (lookupTask (s.tasks team) task_id = none →
      complete_task team task_id agent result now s =
        (.error ("Task " ++ task_id ++ " not found"), s)) ∧
    (∀ t, lookupTask (s.tasks team) task_id = some t →
        t.status ≠ "in_progress" →
      complete_task team task_id agent result now s =
        (.error ("Task " ++ task_id ++ " is " ++ t.status ++ ", cannot complete"), s)) ∧
    (∀ t, lookupTask (s.tasks team) task_id = some t →
        t.status = "in_progress" →
      (complete_task team task_id agent result now s).1 =
        .ok { t with status := "completed", completed_at := some now,
                     result := some result } ∧
      lookupTask (((complete_task team task_id agent result now s).2).tasks team)
          task_id =
        some { t with status := "completed", completed_at := some now,
                      result := some result } ∧
      (∀ agent2, complete_task team task_id agent2 result now s =
        complete_task team task_id agent result now s) ∧
      (∀ agent3 result3 now3,
        (complete_task team task_id agent3 result3 now3
            ((complete_task team task_id agent result now s).2)).1 =
          .error ("Task " ++ task_id ++ " is completed, cannot complete"))) := by
  refine ⟨fun h => ?_, fun t h hst => ?_, fun t h hst => ⟨?_, ?_, fun a2 => ?_, fun a3 r3 n3 => ?_⟩⟩
  · simp [complete_task, h]
  · simp [complete_task, h, hst]
  · simp [complete_task, h, hst]
  · simp [complete_task, h, hst, setTasks, lookupTask_writeTask_self]
  · simp [complete_task, h, hst]
  · simp [complete_task, h, hst, setTasks, lookupTask_writeTask_self,
      String.append_assoc]

/-- Witness for C6 at a concrete in-progress task, completed by an agent
different from the recorded claimant. -/
theorem complete_task_spec_witness :
    (complete_task "t" "1" "other" "done" "T2" exFSInProgress).1 =
      .ok { exTaskInProgress with status := "completed",
                                  completed_at := some "T2",
                                  result := some "done" } :=
  ((complete_task_spec "t" "1" "other" "done" "T2" exFSInProgress).2.2
    exTaskInProgress (by decide) (by decide)).1

-- ── C3 ──

/-- Ten `create_task` calls on one team, from an empty filesystem: the
ids assigned by the creation counter are "1" through "10". -/
def mkNTasks : Nat → FS → FS
  | 0, s => s
  | n + 1, s => mkNTasks n ((create_task "t" "job" "" "" "" "i" "T" "T" s).2)

/-- C3 counterexample: after ten sequential `create_task` calls the task
ids are the counter values "1"…"10", yet `list_tasks` returns them in
filename order with "10" immediately after "1" and before "2" — not in
ascending numeric order of the counter, contradicting the claim that
task "2" precedes task "10". -/
theorem list_tasks_order_counterexample :
    (list_tasks "t" none (mkNTasks 10 emptyFS)).map Task.tid =
      ["1", "10", "2", "3", "4", "5", "6", "7", "8", "9"] := by decide

/-- C3 amended: `list_tasks` returns exactly the team's task records
(restricted to the given status when supplied) in ascending lexicographic
order of the task-file name `<id>.json` — which matches numeric id order
only while all ids have the same digit count (with ten or more tasks,
"10" precedes "2"). -/
theorem list_tasks_spec (team : String) (status : Option String) (s : FS) :
    ∃ pairs : List (String × Task),
      pairs.Perm (s.tasks team) ∧
      List.Sorted taskFileLe pairs ∧
      list_tasks team status s = (pairs.map Prod.snd).filter
        (fun t => match status with
          | none => true
          | some st => decide (t.status = st)) :=
  ⟨List.insertionSort taskFileLe (s.tasks team),
    List.perm_insertionSort taskFileLe (s.tasks team),
    List.sorted_insertionSort taskFileLe (s.tasks team), rfl⟩

-- ── C4 ──

def c4Step0 : FS := (create_team "t" ["a"] emptyFS).2

def c4Step1 : FS := (send_message "a@t" "a@t" "hi" "message" "i1" "T1" c4Step0).2

def c4Step2 : FS := (poll_inbox "a@t" "xml" c4Step1).2

def c4Step3 : FS := (add_member "t" "a" c4Step2).2

/-- C4 counterexample: the public-operation sequence create_team →
send → poll → add_member (re-adding the existing member "a") leaves the
cursor at 1 while the message log was reset to length 0, violating
cursor ≤ length; the next poll then writes cursor 0, decreasing it. -/
theorem cursor_invariant_counterexample :
    cursorVal c4Step3 "t" "a" = 1 ∧ inboxLen c4Step3 "t" "a" = 0 ∧
    ¬(cursorVal c4Step3 "t" "a" ≤ inboxLen c4Step3 "t" "a") ∧
    cursorVal ((poll_inbox "a@t" "xml" c4Step3).2) "t" "a" = 0 := by decide

/-- C4 amended: the invariant cursor ≤ log length is preserved — and the
cursor never decreased — by the mailbox operations themselves: append,
poll (on any identity and format) and readAll; `add_member` and
`create_team`, however, rewrite an existing member's inbox to `[]`
without resetting the cursor, after which the invariant can fail and a
subsequent poll decreases the cursor (and `remove_member` deletes the
cursor file outright). -/
theorem cursor_invariant_mailbox (team agent : String) (s : FS)
    (h : cursorVal s team agent ≤ inboxLen s team agent) :
    (∀ t2 a2 msg s1, _append_to_inbox t2 a2 msg s = .ok s1 →
      cursorVal s1 team agent ≤ inboxLen s1 team agent ∧
      cursorVal s team agent ≤ cursorVal s1 team agent) ∧
    (∀ ident fmt,
      cursorVal ((poll_inbox ident fmt s).2) team agent ≤
        inboxLen ((poll_inbox ident fmt s).2) team agent ∧
      cursorVal s team agent ≤
        cursorVal ((poll_inbox ident fmt s).2) team agent) ∧
    (∀ ident, (read_inbox ident s).2 = s) := by
  refine ⟨fun t2 a2 msg s1 hA => ?_, fun ident fmt => ?_,
    fun ident => read_inbox_preserves_state ident s⟩
  · rcases hi : s.inbox t2 a2 with _ | r | ll
    · simp only [_append_to_inbox, hi, Except.ok.injEq] at hA
      subst hA
      refine ⟨?_, le_of_eq rfl⟩
      have hc : cursorVal (setInbox s t2 a2 (.msgs [msg])) team agent =
          cursorVal s team agent := rfl
      rw [hc]
      by_cases he : team = t2 ∧ agent = a2
      · obtain ⟨he1, he2⟩ := he
        have hlen : inboxLen (setInbox s t2 a2 (.msgs [msg])) team agent = 1 := by
          simp [inboxLen, setInbox, he1, he2]
        have h0 : inboxLen s team agent = 0 := by
          rw [he1, he2]; simp [inboxLen, hi]
        rw [hlen]
        have := h
        rw [h0] at this
        omega
      · have hlen : inboxLen (setInbox s t2 a2 (.msgs [msg])) team agent =
            inboxLen s team agent := by
          simp [inboxLen, setInbox, he]
        rw [hlen]; exact h
    · simp [_append_to_inbox, hi] at hA
    · simp only [_append_to_inbox, hi, Except.ok.injEq] at hA
      subst hA
      refine ⟨?_, le_of_eq rfl⟩
      have hc : cursorVal (setInbox s t2 a2 (.msgs (ll ++ [msg]))) team agent =
          cursorVal s team agent := rfl
      rw [hc]
      by_cases he : team = t2 ∧ agent = a2
      · obtain ⟨he1, he2⟩ := he
        have hlen : inboxLen (setInbox s t2 a2 (.msgs (ll ++ [msg]))) team agent =
            ll.length + 1 := by
          simp [inboxLen, setInbox, he1, he2]
        have h0 : inboxLen s team agent = ll.length := by
          rw [he1, he2]; simp [inboxLen, hi]
        rw [hlen]
        have := h
        rw [h0] at this
        omega
      · have hlen : inboxLen (setInbox s t2 a2 (.msgs (ll ++ [msg]))) team agent =
            inboxLen s team agent := by
          simp [inboxLen, setInbox, he]
        rw [hlen]; exact h
  · rcases hp : _parse_identity ident with e | ⟨n, t⟩
    · have hres : (poll_inbox ident fmt s).2 = s := by simp [poll_inbox, hp]
      rw [hres]; exact ⟨h, le_refl _⟩
    · rcases hi : s.inbox t n with _ | r | mlist
      · have hres : (poll_inbox ident fmt s).2 = s := by
          simp [poll_inbox, hp, hi]
        rw [hres]; exact ⟨h, le_refl _⟩
      · have hres : (poll_inbox ident fmt s).2 = s := by
          simp [poll_inbox, hp, hi]
        rw [hres]; exact ⟨h, le_refl _⟩
      · have hres : (poll_inbox ident fmt s).2 =
            setCursor s t n (some mlist.length) := by
          simp only [poll_inbox, hp, hi]
          split
          · rfl
          · split <;> rfl
        rw [hres]
        have hl : inboxLen (setCursor s t n (some mlist.length)) team agent =
            inboxLen s team agent := rfl
        by_cases he : team = t ∧ agent = n
        · obtain ⟨he1, he2⟩ := he
          have hc : cursorVal (setCursor s t n (some mlist.length)) team agent =
              mlist.length := by
            simp [cursorVal, setCursor, he1, he2]
          have hl2 : inboxLen s team agent = mlist.length := by
            rw [he1, he2]; simp [inboxLen, hi]
          exact ⟨by rw [hc, hl, hl2], by rw [hc, ← hl2]; exact h⟩
        · have hc : cursorVal (setCursor s t n (some mlist.length)) team agent =
              cursorVal s team agent := by
            simp [cursorVal, setCursor, he]
          exact ⟨by rw [hc, hl]; exact h, le_of_eq hc.symm⟩

/-- Witness for C4's amended theorem: the invariant after a poll on a
concrete one-message mailbox whose cursor starts at 0. -/
theorem cursor_invariant_mailbox_witness :
    cursorVal ((poll_inbox "a@t" "xml" exFSMsg).2) "t" "a" ≤
      inboxLen ((poll_inbox "a@t" "xml" exFSMsg).2) "t" "a" :=
  ((cursor_invariant_mailbox "t" "a" exFSMsg (by decide)).2.1 "a@t" "xml").1

-- ── C8 ──

/-- C8: `send_message` raises a validation error when either identity
lacks an `@`, raises a cross-team error — modifying nothing — when the
two teams differ, and otherwise appends exactly one message carrying the
given text and type to the recipient's mailbox (`msg_type` defaults to
`"message"` at the Python boundary), returning it. -/
theorem send_message_spec (from_id to_id text msg_type freshId now : String)
    (s : FS) :
    (∀ e, _parse_identity from_id = .error e →
      send_message from_id to_id text msg_type freshId now s = (.error e, s)) ∧
    (∀ fn ft e, _parse_identity from_id = .ok (fn, ft) →
      _parse_identity to_id = .error e →
      send_message from_id to_id text msg_type freshId now s = (.error e, s)) ∧
    (∀ fn ft tn tt, _parse_identity from_id = .ok (fn, ft) →
      _parse_identity to_id = .ok (tn, tt) → ft ≠ tt →
      send_message from_id to_id text msg_type freshId now s =
        (.error "Cross-team messaging not supported", s)) ∧
    (∀ fn tn tt, _parse_identity from_id = .ok (fn, tt) →
      _parse_identity to_id = .ok (tn, tt) →
      (∀ l, s.inbox tt tn = .msgs l →
        send_message from_id to_id text msg_type freshId now s =
          (.ok ⟨freshId, fn, tn, msg_type, text, now⟩,
           setInbox s tt tn
             (.msgs (l ++ [⟨freshId, fn, tn, msg_type, text, now⟩])))) ∧
      (s.inbox tt tn = .absent →
        send_message from_id to_id text msg_type freshId now s =
          (.ok ⟨freshId, fn, tn, msg_type, text, now⟩,
           setInbox s tt tn
             (.msgs [⟨freshId, fn, tn, msg_type, text, now⟩])))) := by
  refine ⟨fun e hF => ?_, fun fn ft e hF hT => ?_, fun fn ft tn tt hF hT hne => ?_,
    fun fn tn tt hF hT => ⟨fun l hl => ?_, fun ha => ?_⟩⟩
  · simp [send_message, hF]
  · simp [send_message, hF, hT]
  · simp [send_message, hF, hT, hne]
  · simp [send_message, hF, hT, _append_to_inbox, hl]
  · simp [send_message, hF, hT, _append_to_inbox, ha]

/-- Witness for C8: a same-team send into an empty (absent) mailbox. -/
theorem send_message_spec_witness :
    send_message "b@t" "a@t" "hi" "message" "i1" "T1" emptyFS =
      (.ok exMsg, setInbox emptyFS "t" "a" (.msgs [exMsg])) :=
  ((send_message_spec "b@t" "a@t" "hi" "message" "i1" "T1" emptyFS).2.2.2
    "b" "a" "t" rfl rfl).2 rfl

-- ── C9 ──

def c9FS : FS := (create_team "bt" ["lead", "w1", "w2"] emptyFS).2

/-- C9: with a duplicate-free member list (the shape `create_team` /
`add_member` maintain) and every non-sender recipient mailbox parsable,
`broadcast` succeeds, appends exactly one message carrying the given text
to each team member other than the sender — one message per such member,
as the returned count shows — and leaves the sender's own mailbox, and
every mailbox outside the recipient set, unchanged. -/
theorem broadcast_spec (from_id text msg_type : String)
    (fresh : Nat → String × String) (s : FS) (fn team : String)
    (hId : _parse_identity from_id = .ok (fn, team))
    (ms : List String) (hM : s.members team = some ms) (hND : ms.Nodup)
    (hOK : ∀ m ∈ ms, m ≠ fn → (inboxMsgsD (s.inbox team m)).isSome) :
    ∃ msgs,
      (broadcast from_id text msg_type fresh s).1 = .ok msgs ∧
      msgs.length = (ms.filter (fun m => decide (m ≠ fn))).length ∧
      ((broadcast from_id text msg_type fresh s).2).inbox team fn =
        s.inbox team fn ∧
      (∀ t2 a2, ¬(t2 = team ∧ a2 ∈ ms ∧ a2 ≠ fn) →
        ((broadcast from_id text msg_type fresh s).2).inbox t2 a2 =
          s.inbox t2 a2) ∧
      (∀ m ∈ ms, m ≠ fn → ∃ j,
        ((broadcast from_id text msg_type fresh s).2).inbox team m =
          .msgs ((inboxMsgsD (s.inbox team m)).getD [] ++
            [⟨(fresh j).1, fn, m, msg_type, text, (fresh j).2⟩])) := by
  obtain ⟨msgs, s1, hEq, hLen, hUn, hPer, _, _, _⟩ :=
    broadcastLoop_ok team fn text msg_type fresh ms 0 [] s hND hOK
  have hB : broadcast from_id text msg_type fresh s = (.ok msgs, s1) := by
    simpa [broadcast, hId, hM] using hEq
  refine ⟨msgs, by rw [hB], hLen, ?_, ?_, ?_⟩
  · rw [hB]
    exact hUn team fn (fun hcon => hcon.2.2 rfl)
  · intro t2 a2 hne
    rw [hB]
    exact hUn t2 a2 hne
  · intro m hmem hne
    obtain ⟨j, _, hj⟩ := hPer m hmem hne
    exact ⟨j, by rw [hB]; exact hj⟩

/-- Witness for C9: the spec's example — broadcasting from `lead` to a
team with members lead, w1, w2 leaves lead's own mailbox untouched (and
the theorem's other conjuncts give delivery to w1 and w2 only). -/
theorem broadcast_spec_witness :
    ∃ msgs,
      (broadcast "lead@bt" "all hands" "broadcast"
        (fun k => (toString k, "T")) c9FS).1 = .ok msgs ∧
      msgs.length = 2 ∧
      ((broadcast "lead@bt" "all hands" "broadcast"
        (fun k => (toString k, "T")) c9FS).2).inbox "bt" "lead" =
        c9FS.inbox "bt" "lead" := by
  obtain ⟨msgs, hOk, hLen, hSender, _, _⟩ :=
    broadcast_spec "lead@bt" "all hands" "broadcast"
      (fun k => (toString k, "T")) c9FS "lead" "bt" rfl
      ["lead", "w1", "w2"] (by decide) (by decide) (by decide)
  exact ⟨msgs, hOk, by simpa using hLen, hSender⟩

-- ── C7 ──

/-- The id `create_task` assigns: `str(count of existing task files + 1)`. -/
def newTaskId (team : String) (s : FS) : String :=
  toString ((s.tasks team).length + 1)

/-- The pending record `create_task` constructs (empty-string arguments
become JSON null). -/
def newTask (team subject description assigned_to assigned_by nowT : String)
    (s : FS) : Task :=
  ⟨newTaskId team s, subject, description, "pending",
   (if assigned_to = "" then none else some assigned_to),
   (if assigned_by = "" then none else some assigned_by),
   nowT, none, none, none⟩

def c7FS : FS := setInbox emptyFS "t" "w" (.corrupt "oops")

/-- C7 counterexample: with assignee and assigner both non-empty but the
assignee's inbox file malformed, the notification write raises; the task
record "1" is durably written (not rolled back), yet `create_task` raises
instead of returning the created task — contradicting "the created task
is still returned to the caller". -/
theorem create_task_notify_counterexample :
    isErr (create_task "t" "subj" "d" "w" "lead" "i1" "T1" "T2" c7FS).1 = true ∧
    lookupTask
      (((create_task "t" "subj" "d" "w" "lead" "i1" "T1" "T2" c7FS).2).tasks "t")
      "1" =
      some ⟨"1", "subj", "d", "pending", some "w", some "lead", "T1",
            none, none, none⟩ := by decide

/-- C7 amended: a `task_assignment` notification is attempted iff both
assignedTo and assignedBy are non-empty; it is dispatched only after the
task record is written, and a failing notification write does not undo
the record — it stays on disk — but the failure propagates to the caller
as an error instead of the created task being returned.  With no
notification due, the mailboxes are untouched and the task is returned;
with a parsable recipient mailbox, exactly one notification message is
appended and the task is returned. -/
theorem create_task_spec (team subject description assigned_to assigned_by
    freshId nowT nowM : String) (s : FS) :
    lookupTask
        (((create_task team subject description assigned_to assigned_by
          freshId nowT nowM s).2).tasks team) (newTaskId team s) =
      some (newTask team subject description assigned_to assigned_by nowT s) ∧
    (¬(assigned_to ≠ "" ∧ assigned_by ≠ "") →
      create_task team subject description assigned_to assigned_by
          freshId nowT nowM s =
        (.ok (newTask team subject description assigned_to assigned_by nowT s),
         setTasks s team (writeTask (s.tasks team) (newTaskId team s)
           (newTask team subject description assigned_to assigned_by nowT s)))) ∧
    ((assigned_to ≠ "" ∧ assigned_by ≠ "") → ∀ bn tn tt,
      _parse_identity (assigned_by ++ "@" ++ team) = .ok (bn, tt) →
      _parse_identity (assigned_to ++ "@" ++ team) = .ok (tn, tt) →
      (∀ l, s.inbox tt tn = .msgs l →
        create_task team subject description assigned_to assigned_by
            freshId nowT nowM s =
          (.ok (newTask team subject description assigned_to assigned_by nowT s),
           setInbox
             (setTasks s team (writeTask (s.tasks team) (newTaskId team s)
               (newTask team subject description assigned_to assigned_by nowT s)))
             tt tn
             (.msgs (l ++ [⟨freshId, bn, tn, "task_assignment",
               notificationText (newTaskId team s) subject description, nowM⟩])))) ∧
      (s.inbox tt tn = .absent →
        create_task team subject description assigned_to assigned_by
            freshId nowT nowM s =
          (.ok (newTask team subject description assigned_to assigned_by nowT s),
           setInbox
             (setTasks s team (writeTask (s.tasks team) (newTaskId team s)
               (newTask team subject description assigned_to assigned_by nowT s)))
             tt tn
             (.msgs [⟨freshId, bn, tn, "task_assignment",
               notificationText (newTaskId team s) subject description, nowM⟩]))) ∧
      (∀ raw, s.inbox tt tn = .corrupt raw →
        isErr (create_task team subject description assigned_to assigned_by
          freshId nowT nowM s).1 = true ∧
        (create_task team subject description assigned_to assigned_by
            freshId nowT nowM s).2 =
          setTasks s team (writeTask (s.tasks team) (newTaskId team s)
            (newTask team subject description assigned_to assigned_by nowT s)))) := by
  refine ⟨?_, fun hno => ?_, fun hc bn tn tt hBy hTo =>
    ⟨fun l hl => ?_, fun ha => ?_, fun raw hcor => ?_⟩⟩
  · by_cases hc : assigned_to ≠ "" ∧ assigned_by ≠ ""
    · obtain ⟨hc1, hc2⟩ := hc
      rcases hsm : send_message (assigned_by ++ "@" ++ team)
          (assigned_to ++ "@" ++ team)
          (notificationText (newTaskId team s) subject description)
          "task_assignment" freshId nowM
          (setTasks s team (writeTask (s.tasks team) (newTaskId team s)
            (newTask team subject description assigned_to assigned_by nowT s)))
        with ⟨r, s2⟩
      have h2 : (create_task team subject description assigned_to assigned_by
          freshId nowT nowM s).2 = s2 := by
        simp only [newTaskId, newTask, if_neg hc1, if_neg hc2] at hsm
        cases r <;>
          simp [create_task, newTaskId, newTask, hc1, hc2, hsm]
      rw [h2]
      have hT := (send_message_frame (assigned_by ++ "@" ++ team)
        (assigned_to ++ "@" ++ team)
        (notificationText (newTaskId team s) subject description)
        "task_assignment" freshId nowM
        (setTasks s team (writeTask (s.tasks team) (newTaskId team s)
          (newTask team subject description assigned_to assigned_by nowT s)))).1
      rw [hsm] at hT
      rw [hT]
      simp [setTasks, lookupTask_writeTask_self]
    · simp [create_task, newTaskId, newTask, hc, setTasks,
        lookupTask_writeTask_self]
  · simp [create_task, newTaskId, newTask, hno, setTasks]
  · obtain ⟨hc1, hc2⟩ := hc
    simp [create_task, newTaskId, newTask, hc1, hc2, send_message, hBy, hTo,
      _append_to_inbox, setTasks, hl]
  · obtain ⟨hc1, hc2⟩ := hc
    simp [create_task, newTaskId, newTask, hc1, hc2, send_message, hBy, hTo,
      _append_to_inbox, setTasks, ha]
  · obtain ⟨hc1, hc2⟩ := hc
    simp [create_task, newTaskId, newTask, hc1, hc2, send_message, hBy, hTo,
      _append_to_inbox, setTasks, hcor, isErr]

/-- Witness for C7's amended theorem: assigned creation into an empty
filesystem — the task is returned and exactly one notification lands in
the assignee's (previously absent) mailbox. -/
theorem create_task_spec_witness :
    (create_task "t" "s" "" "w" "lead" "i" "T1" "T2" emptyFS).1 =
      .ok (newTask "t" "s" "" "w" "lead" "T1" emptyFS) := by
  have h := ((create_task_spec "t" "s" "" "w" "lead" "i" "T1" "T2"
    emptyFS).2.2 (by decide) "lead" "w" "t" rfl rfl).2.1 rfl
  rw [h]

end AgentTeams
